import Mathlib

/-
Verification of the Revora revenue-share contract (Awointa/Revora-Contracts).

The contract in src/src/lib.rs is embedded shallowly:
- soroban `Address` values become `Nat` identifiers,
- soroban `String` values become their byte sequences (`List Nat`),
- soroban `Map<String, String>` and the persistent storage become
  association lists mutated by explicit set/get/remove operations,
- `env.events().publish(topics, data)` becomes a returned `Event` value
  holding the topic tuple and the data tuple over a small value universe,
- a Rust `panic!` (which aborts the whole invocation, reverting every
  write and discarding every published event) becomes `Except.error`,
  which carries no successor state and no event,
- `require_auth` is the host authorization facade; every operation below
  models the behavior of an authorized invocation, as the claims assume.

The offering registry (try_register_offering / get_offering_count /
get_offerings_page) and the blacklist manager are referenced by the
repository's test suite but absent from src/src/lib.rs; they are modelled
from the specification where noted.
-/

namespace Revora

/-- Value universe for event topics and data payloads. -/
inductive Val where
  | vsym : String → Val
  | vaddr : Nat → Val
  | vnat : Nat → Val
  | vint : Int → Val
  | vstr : List Nat → Val
  | vaddrs : List Nat → Val
deriving DecidableEq

/-- A published notification: a topic tuple and a data tuple. -/
structure Event where
  topics : List Val
  data : List Val
deriving DecidableEq

/-- Lookup in an association list (first entry with the given key). -/
def alGet {κ α : Type} [DecidableEq κ] : List (κ × α) → κ → Option α
  | [], _ => none
  | (k, v) :: rest, key => if k = key then some v else alGet rest key

/-- Insert-or-replace in an association list, mirroring `Map::set` and
`storage().persistent().set`. -/
def alSet {κ α : Type} [DecidableEq κ] : List (κ × α) → κ → α → List (κ × α)
  | [], key, val => [(key, val)]
  | (k, v) :: rest, key, val =>
      if k = key then (key, val) :: rest else (k, v) :: alSet rest key val

/-- Remove a key from an association list, mirroring `Map::remove`. -/
def alRemove {κ α : Type} [DecidableEq κ] : List (κ × α) → κ → List (κ × α)
  | [], _ => []
  | (k, v) :: rest, key => if k = key then rest else (k, v) :: alRemove rest key

theorem alGet_alSet_self {κ α : Type} [DecidableEq κ] (m : List (κ × α)) (k : κ) (v : α) :
    alGet (alSet m k v) k = some v := by
  induction m with
  | nil => simp [alSet, alGet]
  | cons p rest ih =>
      obtain ⟨pk, pv⟩ := p
      by_cases h : pk = k
      · simp [alSet, alGet, h]
      · simp [alSet, alGet, h, ih]

theorem alGet_alSet_ne {κ α : Type} [DecidableEq κ] (m : List (κ × α)) (k k2 : κ) (v : α)
    (h : k ≠ k2) : alGet (alSet m k v) k2 = alGet m k2 := by
  induction m with
  | nil => simp [alSet, alGet, h]
  | cons p rest ih =>
      obtain ⟨pk, pv⟩ := p
      by_cases hp : pk = k
      · subst hp
        simp [alSet, alGet, h]
      · by_cases hp2 : pk = k2 <;> simp [alSet, alGet, hp, hp2, ih, Ne.symm h]

theorem alSet_alSet {κ α : Type} [DecidableEq κ] (m : List (κ × α)) (k : κ) (v w : α) :
    alSet (alSet m k v) k w = alSet m k w := by
  induction m with
  | nil => simp [alSet]
  | cons p rest ih =>
      obtain ⟨pk, pv⟩ := p
      by_cases h : pk = k
      · simp [alSet, h]
      · simp [alSet, h, ih]

/-- A soroban `String`, as its byte sequence; `len()` is the byte length. -/
abbrev Str := List Nat

/-- `contains_key` on a `Map<String, String>`. -/
def mapContains (m : List (Str × Str)) (k : Str) : Bool :=
  (alGet m k).isSome

/-- Contract storage state: the persistent `Map<String, String>` entries
stored under the composite key `(METADATA_KEY, issuer)`; since the symbol
component is the fixed `meta`, the key space is the issuer address. -/
structure State where
  meta : List (Nat × List (Str × Str))
deriving DecidableEq

/-- `MAX_METADATA_LENGTH` from the source: 1KB max for a metadata URI. -/
def MAX_METADATA_LENGTH : Nat := 1024

/-- The stored metadata map for an issuer:
`storage().persistent().get(&(METADATA_KEY, issuer)).unwrap_or_else(Map::new)`. -/
def metaMapOf (s : State) (issuer : Nat) : List (Str × Str) :=
  (alGet s.meta issuer).getD []

/-- `register_offering` exactly as in src/src/lib.rs: after `require_auth`
it only publishes the `offer_reg` event; it validates nothing and stores
nothing. -/
def register_offering (s : State) (issuer token : Nat) (revenue_share_bps : Nat) :
    State × Event :=
  (s, ⟨[Val.vsym "offer_reg", Val.vaddr issuer],
       [Val.vaddr token, Val.vnat revenue_share_bps]⟩)

/-- `report_revenue` exactly as in src/src/lib.rs: publishes the `rev_rep`
event topic-keyed by `(issuer, token)` with data `(amount, period_id)` —
a pair, with no blacklist snapshot component. -/
def report_revenue (s : State) (issuer token : Nat) (amount : Int) (period_id : Nat) :
    State × Event :=
  (s, ⟨[Val.vsym "rev_rep", Val.vaddr issuer, Val.vaddr token],
       [Val.vint amount, Val.vnat period_id]⟩)

/-- `set_metadata` from src/src/lib.rs: validates the URI byte length,
then writes the entry into the issuer's map and publishes `meta_new` when
the offering id was absent before the write, `meta_upd` otherwise. -/
def set_metadata (s : State) (issuer : Nat) (offering_id metadata_uri : Str) :
    Except String (State × Event) :=
  if metadata_uri.length = 0 then
    .error "Metadata URI cannot be empty"
  else if MAX_METADATA_LENGTH < metadata_uri.length then
    .error "Metadata URI exceeds maximum length"
  else
    let metadata_map := metaMapOf s issuer
    let is_new := !mapContains metadata_map offering_id
    let metadata_map2 := alSet metadata_map offering_id metadata_uri
    let s2 : State := ⟨alSet s.meta issuer metadata_map2⟩
    if is_new then
      .ok (s2, ⟨[Val.vsym "meta_new", Val.vaddr issuer],
                [Val.vstr offering_id, Val.vstr metadata_uri]⟩)
    else
      .ok (s2, ⟨[Val.vsym "meta_upd", Val.vaddr issuer],
                [Val.vstr offering_id, Val.vstr metadata_uri]⟩)

/-- `get_metadata` from src/src/lib.rs: pure read of the issuer's map. -/
def get_metadata (s : State) (issuer : Nat) (offering_id : Str) : Option Str :=
  alGet (metaMapOf s issuer) offering_id

/-- `update_metadata` from src/src/lib.rs: same URI validation as
`set_metadata`, then aborts when no entry exists; never creates. -/
def update_metadata (s : State) (issuer : Nat) (offering_id metadata_uri : Str) :
    Except String (State × Event) :=
  if metadata_uri.length = 0 then
    .error "Metadata URI cannot be empty"
  else if MAX_METADATA_LENGTH < metadata_uri.length then
    .error "Metadata URI exceeds maximum length"
  else
    let metadata_map := metaMapOf s issuer
    if !mapContains metadata_map offering_id then
      .error "No metadata found for offering"
    else
      let metadata_map2 := alSet metadata_map offering_id metadata_uri
      .ok (⟨alSet s.meta issuer metadata_map2⟩,
           ⟨[Val.vsym "meta_upd", Val.vaddr issuer],
            [Val.vstr offering_id, Val.vstr metadata_uri]⟩)

/-- `delete_metadata` from src/src/lib.rs: aborts when no entry exists,
otherwise removes it and publishes `meta_del` carrying only the id. -/
def delete_metadata (s : State) (issuer : Nat) (offering_id : Str) :
    Except String (State × Event) :=
  let metadata_map := metaMapOf s issuer
  if !mapContains metadata_map offering_id then
    .error "No metadata found for offering"
  else
    let metadata_map2 := alRemove metadata_map offering_id
    .ok (⟨alSet s.meta issuer metadata_map2⟩,
         ⟨[Val.vsym "meta_del", Val.vaddr issuer], [Val.vstr offering_id]⟩)

/-- Whether an invocation aborted. -/
def isError (r : Except String (State × Event)) : Bool :=
  match r with
  | .error _ => true
  | .ok _ => false

/-- The observable state after an invocation: an abort reverts every
write, leaving the pre-state. -/
def stateAfter (s : State) (r : Except String (State × Event)) : State :=
  match r with
  | .error _ => s
  | .ok (s2, _) => s2

/-- The notifications published by an invocation: an abort discards them. -/
def eventsAfter (r : Except String (State × Event)) : List Event :=
  match r with
  | .error _ => []
  | .ok (_, e) => [e]

/-- An offering record, as in the source `Offering` struct. -/
structure Offering where
  issuer : Nat
  token : Nat
  revenue_share_bps : Nat
deriving DecidableEq

/-- The structured error type required by the test suite (`RevoraError`,
code 1 for `InvalidRevenueShareBps`). -/
inductive RevoraError where
  | InvalidRevenueShareBps
deriving DecidableEq

/-- Modelled from the spec: the persisting Offering Registry state —
`try_register_offering`, `get_offering_count` and `get_offerings_page` are
referenced by the repository's test suite but absent from src/src/lib.rs.
Per §4.1 the registry keeps a per-issuer append-only offering sequence and
a separately persisted per-issuer count. -/
structure RegState where
  seqs : List (Nat × List Offering)
  counts : List (Nat × Nat)
deriving DecidableEq

/-- The initial (empty) registry state. -/
def regInit : RegState := ⟨[], []⟩

/-- The stored offering sequence of an issuer (empty when never written). -/
def offSeq (s : RegState) (issuer : Nat) : List Offering :=
  (alGet s.seqs issuer).getD []

/-- Modelled from the spec: `get_offering_count` returns the issuer's
persisted count, or 0 if the issuer has never registered anything. -/
def get_offering_count (s : RegState) (issuer : Nat) : Nat :=
  (alGet s.counts issuer).getD 0

/-- Modelled from the spec: the Result-returning `try_register_offering`.
It validates `revenue_share_bps ≤ 10000` (returning
`InvalidRevenueShareBps` above the threshold, with no mutation), appends
the offering to the issuer's sequence, increments the issuer's count by
exactly one, and publishes the `offer_reg` notification; the plain variant
aborts the invocation on the same condition. -/
def try_register_offering (s : RegState) (issuer token : Nat) (revenue_share_bps : Nat) :
    Except RevoraError (RegState × Event) :=
  if 10000 < revenue_share_bps then
    .error RevoraError.InvalidRevenueShareBps
  else
    .ok (⟨alSet s.seqs issuer (offSeq s issuer ++ [⟨issuer, token, revenue_share_bps⟩]),
          alSet s.counts issuer (get_offering_count s issuer + 1)⟩,
         ⟨[Val.vsym "offer_reg", Val.vaddr issuer],
          [Val.vaddr token, Val.vnat revenue_share_bps]⟩)

/-- `MAX_PAGE_LIMIT` from the spec: the fixed maximum page size, 20. -/
def MAX_PAGE_LIMIT : Nat := 20

/-- The effective page size: a requested limit of 0 means "use the
maximum page size"; anything above the maximum is capped to it. -/
def pageLim (limit : Nat) : Nat :=
  if limit = 0 then MAX_PAGE_LIMIT else min limit MAX_PAGE_LIMIT

/-- Modelled from the spec: `get_offerings_page`. With `n = count(issuer)`
an out-of-range cursor yields `(empty, none)`; otherwise the slice
`[cursor, cursor + pageLim limit)` of the stored sequence intersected with
`[0, n)`, and the next cursor exactly when the page did not reach the end. -/
def get_offerings_page (s : RegState) (issuer : Nat) (cursor limit : Nat) :
    List Offering × Option Nat :=
  let lim := pageLim limit
  let n := get_offering_count s issuer
  if n ≤ cursor then ([], none)
  else
    (((offSeq s issuer).drop cursor).take lim,
     if cursor + lim < n then some (cursor + lim) else none)

/-- Run a sequence of registration requests `(issuer, token, bps)` through
`try_register_offering`, keeping the new state on success and the old
state on a validation error. -/
def runRegs : RegState → List (Nat × Nat × Nat) → RegState
  | s, [] => s
  | s, (issuer, token, bps) :: rest =>
      match try_register_offering s issuer token bps with
      | .ok (s2, _) => runRegs s2 rest
      | .error _ => runRegs s rest

/-- The offerings a request list successfully registers for an issuer, in
order: the requests naming that issuer whose bps pass validation. -/
def regsFor (issuer : Nat) : List (Nat × Nat × Nat) → List Offering
  | [] => []
  | (i, t, bps) :: rest =>
      if i = issuer ∧ bps ≤ 10000 then ⟨i, t, bps⟩ :: regsFor issuer rest
      else regsFor issuer rest

/-- Concatenate successive pages, following the returned cursors, with
fuel bounding the number of page requests. -/
def pagesFrom (s : RegState) (issuer : Nat) (limit : Nat) : Nat → Nat → List Offering
  | 0, _ => []
  | fuel + 1, cursor =>
      match get_offerings_page s issuer cursor limit with
      | (page, none) => page
      | (page, some c2) => page ++ pagesFrom s issuer limit fuel c2

/-- All pages of an issuer, starting from cursor 0 with a fixed limit. -/
def collectPages (s : RegState) (issuer : Nat) (limit : Nat) : List Offering :=
  pagesFrom s issuer limit (get_offering_count s issuer + 1) 0

/-- Modelled from the spec: blacklist storage — a per-asset investor
membership set, absent from src/src/lib.rs though exercised by the test
suite. Sets are kept as duplicate-free member lists keyed by token. -/
structure BlState where
  members : List (Nat × List Nat)
deriving DecidableEq

/-- The initial (empty) blacklist state. -/
def blInit : BlState := ⟨[]⟩

/-- Modelled from the spec: `get_blacklist` — all current members for a
token, each appearing exactly once. -/
def get_blacklist (s : BlState) (token : Nat) : List Nat :=
  (alGet s.members token).getD []

/-- Modelled from the spec: `is_blacklisted` — pure membership test. -/
def is_blacklisted (s : BlState) (token investor : Nat) : Bool :=
  (get_blacklist s token).contains investor

/-- Modelled from the spec: `blacklist_add` — after authorization of the
caller, adds the investor to the token's set; an already-present member
leaves the set unchanged, and the event is published either way. -/
def blacklist_add (s : BlState) (caller token investor : Nat) : BlState × Event :=
  let l := get_blacklist s token
  let l2 := if l.contains investor then l else l ++ [investor]
  (⟨alSet s.members token l2⟩,
   ⟨[Val.vsym "bl_add", Val.vaddr token], [Val.vaddr investor]⟩)

/-- Modelled from the spec: `blacklist_remove` — removing an absent member
is a successful no-op that still publishes the removal event. -/
def blacklist_remove (s : BlState) (caller token investor : Nat) : BlState × Event :=
  let l := get_blacklist s token
  let l2 := l.filter (fun a => a != investor)
  (⟨alSet s.members token l2⟩,
   ⟨[Val.vsym "bl_rem", Val.vaddr token], [Val.vaddr investor]⟩)

theorem runRegs_cons_ok (s : RegState) (i t bps : Nat) (rest : List (Nat × Nat × Nat))
    (h : ¬10000 < bps) :
    runRegs s ((i, t, bps) :: rest)
      = runRegs (⟨alSet s.seqs i (offSeq s i ++ [⟨i, t, bps⟩]),
                  alSet s.counts i (get_offering_count s i + 1)⟩ : RegState) rest := by
  simp [runRegs, try_register_offering, h]

theorem runRegs_cons_err (s : RegState) (i t bps : Nat) (rest : List (Nat × Nat × Nat))
    (h : 10000 < bps) :
    runRegs s ((i, t, bps) :: rest) = runRegs s rest := by
  simp [runRegs, try_register_offering, h]

theorem offSeq_runRegs (rs : List (Nat × Nat × Nat)) (s : RegState) (issuer : Nat) :
    offSeq (runRegs s rs) issuer = offSeq s issuer ++ regsFor issuer rs := by
  induction rs generalizing s with
  | nil => simp [runRegs, regsFor]
  | cons r rest ih =>
      obtain ⟨i, t, bps⟩ := r
      by_cases hb : 10000 < bps
      · have hreg : ¬(i = issuer ∧ bps ≤ 10000) := fun hc => absurd hc.2 (not_le.mpr hb)
        rw [runRegs_cons_err s i t bps rest hb, ih]
        simp [regsFor, hreg]
      · rw [runRegs_cons_ok s i t bps rest hb, ih]
        by_cases hi : i = issuer
        · subst hi
          simp [offSeq, alGet_alSet_self, regsFor, not_lt.mp hb]
        · have hoff : offSeq
              (⟨alSet s.seqs i (offSeq s i ++ [⟨i, t, bps⟩]),
                alSet s.counts i (get_offering_count s i + 1)⟩ : RegState) issuer
              = offSeq s issuer := by
            simp [offSeq, alGet_alSet_ne _ _ _ _ hi]
          rw [hoff]
          simp [regsFor, hi]

theorem count_runRegs (rs : List (Nat × Nat × Nat)) (s : RegState) (issuer : Nat) :
    get_offering_count (runRegs s rs) issuer
      = get_offering_count s issuer + (regsFor issuer rs).length := by
  induction rs generalizing s with
  | nil => simp [runRegs, regsFor]
  | cons r rest ih =>
      obtain ⟨i, t, bps⟩ := r
      by_cases hb : 10000 < bps
      · have hreg : ¬(i = issuer ∧ bps ≤ 10000) := fun hc => absurd hc.2 (not_le.mpr hb)
        rw [runRegs_cons_err s i t bps rest hb, ih]
        simp [regsFor, hreg]
      · rw [runRegs_cons_ok s i t bps rest hb, ih]
        by_cases hi : i = issuer
        · subst hi
          simp only [get_offering_count, alGet_alSet_self, Option.getD_some]
          simp [regsFor, not_lt.mp hb, get_offering_count]
          omega
        · have hcnt : get_offering_count
              (⟨alSet s.seqs i (offSeq s i ++ [⟨i, t, bps⟩]),
                alSet s.counts i (get_offering_count s i + 1)⟩ : RegState) issuer
              = get_offering_count s issuer := by
            simp [get_offering_count, alGet_alSet_ne _ _ _ _ hi]
          rw [hcnt]
          simp [regsFor, hi]

theorem pageLim_pos (limit : Nat) : 1 ≤ pageLim limit := by
  unfold pageLim MAX_PAGE_LIMIT
  by_cases h : limit = 0
  · simp [h]
  · simp [h]
    omega

theorem page_out_of_range (s : RegState) (issuer cursor limit : Nat)
    (h : get_offering_count s issuer ≤ cursor) :
    get_offerings_page s issuer cursor limit = ([], none) := by
  simp [get_offerings_page, h]

theorem page_in_range_more (s : RegState) (issuer cursor limit : Nat)
    (h1 : cursor < get_offering_count s issuer)
    (h2 : cursor + pageLim limit < get_offering_count s issuer) :
    get_offerings_page s issuer cursor limit
      = (((offSeq s issuer).drop cursor).take (pageLim limit),
         some (cursor + pageLim limit)) := by
  simp [get_offerings_page, not_le.mpr h1, h2]

theorem page_in_range_last (s : RegState) (issuer cursor limit : Nat)
    (h1 : cursor < get_offering_count s issuer)
    (h2 : ¬cursor + pageLim limit < get_offering_count s issuer) :
    get_offerings_page s issuer cursor limit
      = (((offSeq s issuer).drop cursor).take (pageLim limit), none) := by
  simp [get_offerings_page, not_le.mpr h1, h2]

theorem pagesFrom_eq_drop (s : RegState) (issuer : Nat) (limit : Nat)
    (hlen : get_offering_count s issuer = (offSeq s issuer).length) :
    ∀ fuel cursor, (offSeq s issuer).length - cursor < fuel →
      pagesFrom s issuer limit fuel cursor = (offSeq s issuer).drop cursor := by
  intro fuel
  induction fuel with
  | zero => intro cursor h; omega
  | succ f ih =>
      intro cursor hfuel
      by_cases hc : get_offering_count s issuer ≤ cursor
      · have hdrop : (offSeq s issuer).drop cursor = [] :=
          List.drop_eq_nil_of_le (hlen ▸ hc)
        rw [pagesFrom, page_out_of_range s issuer cursor limit hc, hdrop]
      · have hcur : cursor < (offSeq s issuer).length := hlen ▸ not_le.mp hc
        have hone : 1 ≤ pageLim limit := pageLim_pos limit
        by_cases hnext : cursor + pageLim limit < get_offering_count s issuer
        · have ih2 : pagesFrom s issuer limit f (cursor + pageLim limit)
              = (offSeq s issuer).drop (cursor + pageLim limit) := by
            apply ih
            omega
          rw [pagesFrom, page_in_range_more s issuer cursor limit (not_le.mp hc) hnext]
          show ((offSeq s issuer).drop cursor).take (pageLim limit)
              ++ pagesFrom s issuer limit f (cursor + pageLim limit)
            = (offSeq s issuer).drop cursor
          rw [ih2]
          exact List.drop_take_append_drop _ _ _
        · have htake : ((offSeq s issuer).drop cursor).take (pageLim limit)
              = (offSeq s issuer).drop cursor := by
            apply List.take_of_length_le
            rw [List.length_drop]
            omega
          rw [pagesFrom, page_in_range_last s issuer cursor limit (not_le.mp hc) hnext]
          show ((offSeq s issuer).drop cursor).take (pageLim limit)
            = (offSeq s issuer).drop cursor
          exact htake

theorem contains_filter_ne (l : List Nat) (x : Nat) :
    (l.filter (fun a => a != x)).contains x = false := by
  induction l with
  | nil => rfl
  | cons a rest ih =>
      by_cases h : a = x
      · simp [List.filter_cons, h, ih]
      · simp [List.filter_cons, h, ih, Ne.symm h]

theorem filter_idem (p : Nat → Bool) (l : List Nat) :
    (l.filter p).filter p = l.filter p := by
  induction l with
  | nil => rfl
  | cons a rest ih =>
      by_cases h : p a <;> simp [List.filter_cons, h, ih]

/-- C1: the claim says `register_offering` aborts for `revenue_share_bps`
greater than 10000; but the `register_offering` in src/src/lib.rs performs
no bps validation at all: at bps = 10001 it still succeeds, mutates
nothing, and publishes the `offer_reg` notification carrying the
over-threshold value — contradicting the repository's own test
`register_offering_rejects_bps_over_10000`, which demands an
`InvalidRevenueShareBps` error for this input (and whose use of the
`RevoraError` type does not even resolve against src/src/lib.rs). -/
theorem register_offering_no_bps_check :
    register_offering ⟨[]⟩ 0 1 10001
      = (⟨[]⟩, ⟨[Val.vsym "offer_reg", Val.vaddr 0],
                [Val.vaddr 1, Val.vnat 10001]⟩) := rfl

/-- C2: the claim says the `rev_rep` notification's data payload is the
triple `(amount, period_id, blacklistSnapshot)`; the `report_revenue` in
src/src/lib.rs does publish the topics `(rev_rep, issuer, token)`, but its
data payload is the bare pair `(amount, period_id)` — two components and
no blacklist snapshot — contradicting the repository's own test
`report_revenue_emits_exact_event`, which expects the triple ending in a
`Vec<Address>` snapshot. -/
theorem report_revenue_payload_has_no_snapshot :
    (report_revenue ⟨[]⟩ 0 1 5000000 42).2
      = ⟨[Val.vsym "rev_rep", Val.vaddr 0, Val.vaddr 1],
         [Val.vint 5000000, Val.vnat 42]⟩
    ∧ ((report_revenue ⟨[]⟩ 0 1 5000000 42).2).data.length = 2 := ⟨rfl, rfl⟩

/-- C3: starting from the empty registry and running any sequence of
registration requests, each issuer's `get_offering_count` equals exactly
the number of its successful registrations (0 when it never registered),
and concatenating the pages obtained by following `get_offerings_page`
cursors from 0 with any fixed limit yields exactly those offerings in
registration order. -/
theorem register_count_and_pages (rs : List (Nat × Nat × Nat)) (issuer : Nat)
    (limit : Nat) :
    get_offering_count (runRegs regInit rs) issuer = (regsFor issuer rs).length
    ∧ collectPages (runRegs regInit rs) issuer limit = regsFor issuer rs := by
  have hseq : offSeq (runRegs regInit rs) issuer = regsFor issuer rs := by
    have h := offSeq_runRegs rs regInit issuer
    simpa [offSeq, regInit, alGet] using h
  have hcount : get_offering_count (runRegs regInit rs) issuer
      = (regsFor issuer rs).length := by
    have h := count_runRegs rs regInit issuer
    simpa [get_offering_count, regInit, alGet] using h
  refine ⟨hcount, ?_⟩
  have hlen : get_offering_count (runRegs regInit rs) issuer
      = (offSeq (runRegs regInit rs) issuer).length := by
    rw [hcount, hseq]
  have h := pagesFrom_eq_drop (runRegs regInit rs) issuer limit hlen
    (get_offering_count (runRegs regInit rs) issuer + 1) 0 (by omega)
  rw [collectPages, h, List.drop_zero, hseq]

/-- C4: on every reachable registry state, `get_offerings_page` treats
limit 0 as the maximum page size 20 and silently caps any larger limit at
20; a cursor at or past the issuer's count yields `(empty, none)`; and in
general the page is the slice `[cursor, cursor + clampedLimit)` of the
issuer's offerings (truncated at the end), with the next cursor
`some (cursor + clampedLimit)` exactly when that position is still short
of the count and `none` otherwise. -/
theorem page_clamp_and_boundary (rs : List (Nat × Nat × Nat))
    (issuer cursor limit extra : Nat) :
    get_offerings_page (runRegs regInit rs) issuer cursor 0
      = get_offerings_page (runRegs regInit rs) issuer cursor MAX_PAGE_LIMIT
    ∧ get_offerings_page (runRegs regInit rs) issuer cursor (MAX_PAGE_LIMIT + extra)
      = get_offerings_page (runRegs regInit rs) issuer cursor MAX_PAGE_LIMIT
    ∧ get_offerings_page (runRegs regInit rs) issuer
        ((regsFor issuer rs).length + extra) limit = ([], none)
    ∧ (get_offerings_page (runRegs regInit rs) issuer cursor limit).1
      = ((regsFor issuer rs).drop cursor).take (pageLim limit)
    ∧ (get_offerings_page (runRegs regInit rs) issuer cursor limit).2
      = (if cursor + pageLim limit < (regsFor issuer rs).length
         then some (cursor + pageLim limit) else none) := by
  have hseq : offSeq (runRegs regInit rs) issuer = regsFor issuer rs := by
    have h := offSeq_runRegs rs regInit issuer
    simpa [offSeq, regInit, alGet] using h
  have hcount : get_offering_count (runRegs regInit rs) issuer
      = (regsFor issuer rs).length := by
    have h := count_runRegs rs regInit issuer
    simpa [get_offering_count, regInit, alGet] using h
  have hclamp0 : pageLim 0 = pageLim MAX_PAGE_LIMIT := by
    simp [pageLim, MAX_PAGE_LIMIT]
  have hclampBig : pageLim (MAX_PAGE_LIMIT + extra) = pageLim MAX_PAGE_LIMIT := by
    simp [pageLim, MAX_PAGE_LIMIT]
  refine ⟨?_, ?_, ?_, ?_, ?_⟩
  · unfold get_offerings_page
    rw [hclamp0]
  · unfold get_offerings_page
    rw [hclampBig]
  · apply page_out_of_range
    rw [hcount]
    omega
  · by_cases hc : get_offering_count (runRegs regInit rs) issuer ≤ cursor
    · rw [page_out_of_range _ _ _ _ hc]
      have : (regsFor issuer rs).drop cursor = [] := by
        apply List.drop_eq_nil_of_le
        rw [← hcount]
        exact hc
      simp [this]
    · by_cases hn : cursor + pageLim limit < get_offering_count (runRegs regInit rs) issuer
      · rw [page_in_range_more _ _ _ _ (not_le.mp hc) hn, hseq]
      · rw [page_in_range_last _ _ _ _ (not_le.mp hc) hn, hseq]
  · by_cases hc : get_offering_count (runRegs regInit rs) issuer ≤ cursor
    · rw [page_out_of_range _ _ _ _ hc]
      have hnone : ¬cursor + pageLim limit < (regsFor issuer rs).length := by
        rw [← hcount]
        omega
      simp [hnone]
    · by_cases hn : cursor + pageLim limit < get_offering_count (runRegs regInit rs) issuer
      · rw [page_in_range_more _ _ _ _ (not_le.mp hc) hn]
        rw [hcount] at hn
        simp [hn]
      · rw [page_in_range_last _ _ _ _ (not_le.mp hc) hn]
        rw [hcount] at hn
        simp [hn]

/-- C5: membership is `false` on the initial blacklist state, `true` right
after an add, `false` right after a remove; and adding twice in a row (or
removing twice in a row) leaves exactly the same final state as doing it
once — the redundant call is a successful no-op on the set. -/
theorem blacklist_membership_idempotent (s : BlState) (c c2 token investor : Nat) :
    is_blacklisted blInit token investor = false
    ∧ is_blacklisted (blacklist_add s c token investor).1 token investor = true
    ∧ is_blacklisted (blacklist_remove s c token investor).1 token investor = false
    ∧ (blacklist_add (blacklist_add s c token investor).1 c2 token investor).1
      = (blacklist_add s c token investor).1
    ∧ (blacklist_remove (blacklist_remove s c token investor).1 c2 token investor).1
      = (blacklist_remove s c token investor).1 := by
  refine ⟨rfl, ?_, ?_, ?_, ?_⟩
  · unfold is_blacklisted blacklist_add get_blacklist
    rw [alGet_alSet_self]
    simp only [Option.getD_some]
    by_cases hmem : investor ∈ (alGet s.members token).getD []
    · simp [hmem]
    · simp [hmem]
  · unfold is_blacklisted blacklist_remove get_blacklist
    rw [alGet_alSet_self]
    simp [contains_filter_ne ((alGet s.members token).getD []) investor]
  · unfold blacklist_add get_blacklist
    rw [alGet_alSet_self]
    simp only [Option.getD_some]
    by_cases hmem : investor ∈ (alGet s.members token).getD []
    · simp [hmem, alSet_alSet]
    · simp [hmem, alSet_alSet]
  · unfold blacklist_remove get_blacklist
    rw [alGet_alSet_self]
    simp only [Option.getD_some]
    rw [filter_idem, alSet_alSet]

theorem isError_set_metadata_iff (s : State) (issuer : Nat) (oid uri : Str) :
    isError (set_metadata s issuer oid uri) = true
      ↔ (uri.length = 0 ∨ MAX_METADATA_LENGTH < uri.length) := by
  by_cases h0 : uri.length = 0
  · simp [set_metadata, h0, isError]
  · by_cases hl : MAX_METADATA_LENGTH < uri.length
    · simp [set_metadata, h0, hl, isError]
    · by_cases hnew : mapContains ((alGet s.meta issuer).getD []) oid
      · simp [set_metadata, metaMapOf, h0, hl, hnew, isError]
      · simp [set_metadata, metaMapOf, h0, hl, hnew, isError]

/-- C6: an authorized `set_metadata` aborts exactly when the URI byte
length is 0 or exceeds 1024; a URI of exactly 1024 bytes is accepted; and
an aborted invocation leaves the state untouched and publishes nothing
(the abort reverts the whole invocation, so the error path carries no
successor state and no event). -/
theorem set_metadata_length_validation (s : State) (issuer : Nat) (oid uri : Str) :
    (isError (set_metadata s issuer oid uri) = true
      ↔ (uri.length = 0 ∨ MAX_METADATA_LENGTH < uri.length))
    ∧ isError (set_metadata s issuer oid (List.replicate MAX_METADATA_LENGTH 0)) = false
    ∧ (isError (set_metadata s issuer oid uri) = true →
        stateAfter s (set_metadata s issuer oid uri) = s
        ∧ eventsAfter (set_metadata s issuer oid uri) = []) := by
  refine ⟨isError_set_metadata_iff s issuer oid uri, ?_, ?_⟩
  · cases hE : isError (set_metadata s issuer oid (List.replicate MAX_METADATA_LENGTH 0)) with
    | false => rfl
    | true =>
        have hlen := (isError_set_metadata_iff s issuer oid
          (List.replicate MAX_METADATA_LENGTH 0)).mp hE
        rw [List.length_replicate] at hlen
        simp [MAX_METADATA_LENGTH] at hlen
  · intro he
    by_cases h0 : uri.length = 0
    · simp [set_metadata, h0, stateAfter, eventsAfter]
    · by_cases hl : MAX_METADATA_LENGTH < uri.length
      · simp [set_metadata, h0, hl, stateAfter, eventsAfter]
      · exfalso
        revert he
        by_cases hnew : mapContains ((alGet s.meta issuer).getD []) oid
        · simp [set_metadata, metaMapOf, h0, hl, hnew, isError]
        · simp [set_metadata, metaMapOf, h0, hl, hnew, isError]

/-- C6 witness: at the concrete empty URI the invocation aborts with no
state change and no event. -/
theorem set_metadata_length_validation_witness :
    isError (set_metadata ⟨[]⟩ 0 [1] []) = true
    ∧ stateAfter ⟨[]⟩ (set_metadata ⟨[]⟩ 0 [1] []) = (⟨[]⟩ : State)
    ∧ eventsAfter (set_metadata ⟨[]⟩ 0 [1] []) = [] := by
  have h := set_metadata_length_validation ⟨[]⟩ 0 [1] []
  have he : isError (set_metadata ⟨[]⟩ 0 [1] []) = true := h.1.mpr (Or.inl rfl)
  exact ⟨he, (h.2.2 he).1, (h.2.2 he).2⟩

/-- C7: a successful `set_metadata` stores the entry, so `get_metadata`
then returns exactly the written URI, and exactly one notification is
published: `meta_new` when no entry existed for the pair before the write,
`meta_upd` when one did — the distinction read off the pre-state. -/
theorem set_metadata_stores_and_events (s : State) (issuer : Nat) (oid uri : Str)
    (h1 : uri.length ≠ 0) (h2 : uri.length ≤ MAX_METADATA_LENGTH) :
    get_metadata (stateAfter s (set_metadata s issuer oid uri)) issuer oid = some uri
    ∧ eventsAfter (set_metadata s issuer oid uri)
      = [if mapContains (metaMapOf s issuer) oid
         then ⟨[Val.vsym "meta_upd", Val.vaddr issuer], [Val.vstr oid, Val.vstr uri]⟩
         else ⟨[Val.vsym "meta_new", Val.vaddr issuer], [Val.vstr oid, Val.vstr uri]⟩] := by
  have hnl : ¬MAX_METADATA_LENGTH < uri.length := not_lt.mpr h2
  by_cases hnew : mapContains ((alGet s.meta issuer).getD []) oid
  · constructor
    · simp [set_metadata, metaMapOf, h1, hnl, hnew, stateAfter, get_metadata,
        alGet_alSet_self]
    · simp [set_metadata, metaMapOf, h1, hnl, hnew, eventsAfter]
  · constructor
    · simp [set_metadata, metaMapOf, h1, hnl, hnew, stateAfter, get_metadata,
        alGet_alSet_self]
    · simp [set_metadata, metaMapOf, h1, hnl, hnew, eventsAfter]

/-- C7 witness: a first write on the empty state is readable back and
publishes the creation notification. -/
theorem set_metadata_stores_and_events_witness :
    get_metadata (stateAfter ⟨[]⟩ (set_metadata ⟨[]⟩ 0 [1] [2])) 0 [1] = some [2]
    ∧ eventsAfter (set_metadata ⟨[]⟩ 0 [1] [2])
      = [if mapContains (metaMapOf ⟨[]⟩ 0) [1]
         then ⟨[Val.vsym "meta_upd", Val.vaddr 0], [Val.vstr [1], Val.vstr [2]]⟩
         else ⟨[Val.vsym "meta_new", Val.vaddr 0], [Val.vstr [1], Val.vstr [2]]⟩] :=
  set_metadata_stores_and_events ⟨[]⟩ 0 [1] [2] (by decide) (by decide)

/-- C8: when no metadata entry exists for the pair, `update_metadata` and
`delete_metadata` both abort the invocation: no entry is created, the
stored metadata is unchanged, and no notification is published. -/
theorem update_delete_absent_abort (s : State) (issuer : Nat) (oid uri : Str)
    (h : get_metadata s issuer oid = none) :
    isError (update_metadata s issuer oid uri) = true
    ∧ stateAfter s (update_metadata s issuer oid uri) = s
    ∧ eventsAfter (update_metadata s issuer oid uri) = []
    ∧ isError (delete_metadata s issuer oid) = true
    ∧ stateAfter s (delete_metadata s issuer oid) = s
    ∧ eventsAfter (delete_metadata s issuer oid) = [] := by
  have hc : mapContains ((alGet s.meta issuer).getD []) oid = false := by
    unfold get_metadata metaMapOf at h
    simp [mapContains, h]
  by_cases h0 : uri.length = 0
  · simp [update_metadata, delete_metadata, metaMapOf, h0, hc, isError, stateAfter,
      eventsAfter]
  · by_cases hl : MAX_METADATA_LENGTH < uri.length
    · simp [update_metadata, delete_metadata, metaMapOf, h0, hl, hc, isError,
        stateAfter, eventsAfter]
    · simp [update_metadata, delete_metadata, metaMapOf, h0, hl, hc, isError,
        stateAfter, eventsAfter]

/-- C8 witness: on the empty state both operations abort with no state
change and no event. -/
theorem update_delete_absent_abort_witness :
    isError (update_metadata ⟨[]⟩ 0 [1] [2]) = true
    ∧ stateAfter ⟨[]⟩ (update_metadata ⟨[]⟩ 0 [1] [2]) = (⟨[]⟩ : State)
    ∧ eventsAfter (update_metadata ⟨[]⟩ 0 [1] [2]) = []
    ∧ isError (delete_metadata ⟨[]⟩ 0 [1]) = true
    ∧ stateAfter ⟨[]⟩ (delete_metadata ⟨[]⟩ 0 [1]) = (⟨[]⟩ : State)
    ∧ eventsAfter (delete_metadata ⟨[]⟩ 0 [1]) = [] :=
  update_delete_absent_abort ⟨[]⟩ 0 [1] [2] rfl

/-- C9: an authorized `report_revenue` is total in the amount — it never
aborts for any `i128` amount (negative values included) or any `u64`
period — and the published notification's amount and period fields
exactly equal the inputs; the state is untouched. -/
theorem report_revenue_amount_exact (s : State) (issuer token : Nat) (amount : Int)
    (period_id : Nat) (h1 : -(2 ^ 127) ≤ amount) (h2 : amount ≤ 2 ^ 127 - 1)
    (h3 : period_id ≤ 2 ^ 64 - 1) :
    (report_revenue s issuer token amount period_id).1 = s
    ∧ ((report_revenue s issuer token amount period_id).2).topics
      = [Val.vsym "rev_rep", Val.vaddr issuer, Val.vaddr token]
    ∧ ((report_revenue s issuer token amount period_id).2).data.get? 0
      = some (Val.vint amount)
    ∧ ((report_revenue s issuer token amount period_id).2).data.get? 1
      = some (Val.vnat period_id) :=
  ⟨rfl, rfl, rfl, rfl⟩

/-- C9 witness: at the `i128` minimum amount and the `u64` maximum period
the report succeeds and the payload fields are exactly the inputs. -/
theorem report_revenue_amount_exact_witness :
    (-(2 ^ 127) ≤ (-(2 ^ 127) : Int))
    ∧ ((-(2 ^ 127) : Int) ≤ 2 ^ 127 - 1)
    ∧ ((2 ^ 64 - 1 : Nat) ≤ 2 ^ 64 - 1)
    ∧ (report_revenue ⟨[]⟩ 0 1 (-(2 ^ 127)) (2 ^ 64 - 1)).1 = (⟨[]⟩ : State)
    ∧ ((report_revenue ⟨[]⟩ 0 1 (-(2 ^ 127)) (2 ^ 64 - 1)).2).topics
      = [Val.vsym "rev_rep", Val.vaddr 0, Val.vaddr 1]
    ∧ ((report_revenue ⟨[]⟩ 0 1 (-(2 ^ 127)) (2 ^ 64 - 1)).2).data.get? 0
      = some (Val.vint (-(2 ^ 127)))
    ∧ ((report_revenue ⟨[]⟩ 0 1 (-(2 ^ 127)) (2 ^ 64 - 1)).2).data.get? 1
      = some (Val.vnat (2 ^ 64 - 1)) := by
  have h := report_revenue_amount_exact ⟨[]⟩ 0 1 (-(2 ^ 127)) (2 ^ 64 - 1)
    (le_refl _) (by norm_num) (le_refl _)
  exact ⟨le_refl _, by norm_num, le_refl _, h.1, h.2.1, h.2.2.1, h.2.2.2⟩

/-- C10: metadata is stored under a key composed of the metadata symbol
and the issuer address, so `set_metadata`, `update_metadata` and
`delete_metadata` performed for one issuer never change what another
issuer's map returns, even for the same offering id. -/
theorem metadata_issuer_isolation (s : State) (a b : Nat) (oid oid2 uri : Str)
    (hne : a ≠ b) :
    get_metadata (stateAfter s (set_metadata s a oid uri)) b oid2
      = get_metadata s b oid2
    ∧ get_metadata (stateAfter s (update_metadata s a oid uri)) b oid2
      = get_metadata s b oid2
    ∧ get_metadata (stateAfter s (delete_metadata s a oid)) b oid2
      = get_metadata s b oid2 := by
  refine ⟨?_, ?_, ?_⟩
  · by_cases h0 : uri.length = 0
    · simp [set_metadata, h0, stateAfter]
    · by_cases hl : MAX_METADATA_LENGTH < uri.length
      · simp [set_metadata, h0, hl, stateAfter]
      · by_cases hnew : mapContains ((alGet s.meta a).getD []) oid
        · simp [set_metadata, metaMapOf, h0, hl, hnew, stateAfter, get_metadata,
            alGet_alSet_ne _ _ _ _ hne]
        · simp [set_metadata, metaMapOf, h0, hl, hnew, stateAfter, get_metadata,
            alGet_alSet_ne _ _ _ _ hne]
  · by_cases h0 : uri.length = 0
    · simp [update_metadata, h0, stateAfter]
    · by_cases hl : MAX_METADATA_LENGTH < uri.length
      · simp [update_metadata, h0, hl, stateAfter]
      · by_cases hcont : mapContains ((alGet s.meta a).getD []) oid
        · simp [update_metadata, metaMapOf, h0, hl, hcont, stateAfter, get_metadata,
            alGet_alSet_ne _ _ _ _ hne]
        · simp [update_metadata, metaMapOf, h0, hl, hcont, stateAfter]
  · by_cases hcont : mapContains ((alGet s.meta a).getD []) oid
    · simp [delete_metadata, metaMapOf, hcont, stateAfter, get_metadata,
        alGet_alSet_ne _ _ _ _ hne]
    · simp [delete_metadata, metaMapOf, hcont, stateAfter]

/-- C10 witness: a write for issuer 0 leaves issuer 1's view unchanged. -/
theorem metadata_issuer_isolation_witness :
    get_metadata (stateAfter ⟨[]⟩ (set_metadata ⟨[]⟩ 0 [1] [2])) 1 [1]
      = get_metadata ⟨[]⟩ 1 [1]
    ∧ get_metadata (stateAfter ⟨[]⟩ (update_metadata ⟨[]⟩ 0 [1] [2])) 1 [1]
      = get_metadata ⟨[]⟩ 1 [1]
    ∧ get_metadata (stateAfter ⟨[]⟩ (delete_metadata ⟨[]⟩ 0 [1])) 1 [1]
      = get_metadata ⟨[]⟩ 1 [1] :=
  metadata_issuer_isolation ⟨[]⟩ 0 1 [1] [1] [2] (by decide)

end Revora
